import Mathlib

/-!
Verification of the isla client (`src/client.rs`): the length-prefixed
framing codec, the tagged response encoder, the execution pipeline that
drains the trace queue, the session loop, and the process exit codes.

Byte streams are modelled as `List Nat` (each element one octet), machine
integers as `Nat`/`Int` with explicit bounds, and fallible Rust code as
`Except`.  A Rust `panic!`/`expect` failure is kept distinct from a
`std::io::Error` result: the two leave the process through different
channels (unwinding vs. an `Err` value handled by `isla_main`).
-/

namespace IslaClient

/-- i32::MAX, the largest length the framing's signed 32-bit prefix can carry. -/
def maxI32 : Nat := 2147483647

/-- Little-endian byte decomposition of a non-negative `i32` value, as written
by `i32::to_le_bytes` in `write_slice`. -/
def i32ToLeBytes (n : Nat) : List Nat :=
  [n % 256, n / 256 % 256, n / 65536 % 256, n / 16777216 % 256]

/-- Reassemble a signed 32-bit value from four little-endian bytes, as
`i32::from_le_bytes` does in `read_message`.  Values with the top bit set
are negative. -/
def i32FromLeBytes (b0 b1 b2 b3 : Nat) : Int :=
  let u : Nat := b0 % 256 + 256 * (b1 % 256) + 65536 * (b2 % 256) + 16777216 * (b3 % 256)
  if u < 2147483648 then (u : Int) else (u : Int) - 4294967296

/-- How `write_slice` can fail: `i32::try_from(message.len())` is followed by
`.expect("message length invalid")`, i.e. an overlong payload aborts by
unwinding before any byte is written. -/
inductive WriteErr where
  | lengthInvalid
  deriving DecidableEq, Repr

/-- `write_slice` from `client.rs`: emit the 4-byte little-endian `i32` length
prefix followed by the payload; lengths above `i32::MAX` make the
`expect` call unwind (no bytes written). -/
def write_slice (message : List Nat) : Except WriteErr (List Nat) :=
  if message.length ≤ maxI32 then
    Except.ok (i32ToLeBytes message.length ++ message)
  else
    Except.error WriteErr.lengthInvalid

/-- How `read_message` can fail: a short read makes `read_exact` return a
`std::io::Error`, while a negative decoded length makes
`usize::try_from(length).expect("message length invalid")` unwind — that is
a Rust `panic`, not a `std::io::Error` value. -/
inductive ReadErr where
  | ioShortRead
  | lengthInvalidUnwind
  deriving DecidableEq, Repr

/-- The framing part of `read_message` from `client.rs`: read exactly four
bytes, interpret them as a little-endian `i32`, convert to `usize` (negative
values unwind via `expect`), then read exactly that many body bytes.
Returns the raw body and the unread remainder of the stream. -/
def read_raw (input : List Nat) : Except ReadErr (List Nat × List Nat) :=
  match input with
  | b0 :: b1 :: b2 :: b3 :: rest =>
    let length := i32FromLeBytes b0 b1 b2 b3
    if length < 0 then Except.error ReadErr.lengthInvalidUnwind
    else if rest.length < length.toNat then Except.error ReadErr.ioShortRead
    else Except.ok (rest.take length.toNat, rest.drop length.toNat)
  | _ => Except.error ReadErr.ioShortRead

/-- Is `b` a UTF-8 continuation byte (`0x80 ..= 0xBF`)? -/
def isCont (b : Nat) : Bool :=
  decide (128 ≤ b ∧ b ≤ 191)

/-- UTF-8 encoding of U+FFFD, the replacement character that
`String::from_utf8_lossy` substitutes for each invalid subsequence. -/
def replacementBytes : List Nat := [239, 191, 189]

/-- Valid first continuation bytes for a three-byte sequence led by `b`
(rules out overlong encodings after `0xE0` and surrogates after `0xED`),
exactly as Rust's UTF-8 validation does. -/
def validCont3 (b c1 : Nat) : Bool :=
  decide ((b = 224 ∧ 160 ≤ c1 ∧ c1 ≤ 191) ∨
          (225 ≤ b ∧ b ≤ 236 ∧ 128 ≤ c1 ∧ c1 ≤ 191) ∨
          (b = 237 ∧ 128 ≤ c1 ∧ c1 ≤ 159) ∨
          (238 ≤ b ∧ b ≤ 239 ∧ 128 ≤ c1 ∧ c1 ≤ 191))

/-- Valid first continuation bytes for a four-byte sequence led by `b`
(rules out overlong encodings after `0xF0` and scalar values above
U+10FFFF after `0xF4`), exactly as Rust's UTF-8 validation does. -/
def validCont4 (b c1 : Nat) : Bool :=
  decide ((b = 240 ∧ 144 ≤ c1 ∧ c1 ≤ 191) ∨
          (241 ≤ b ∧ b ≤ 243 ∧ 128 ≤ c1 ∧ c1 ≤ 191) ∨
          (b = 244 ∧ 128 ≤ c1 ∧ c1 ≤ 143))

/-- The byte sequence of `String::from_utf8_lossy(body)`: valid UTF-8 scalar
encodings are copied through unchanged, and each maximal invalid subpart is
replaced by U+FFFD, following Rust's substitution-of-maximal-subparts rule
(an invalid lead byte or a failed first continuation check skips one byte;
a later failed continuation check skips the bytes validated so far; an
incomplete sequence at the end of the slice yields one replacement). -/
def utf8LossyDecode : List Nat → List Nat
  | [] => []
  | b :: rest =>
    if b ≤ 127 then b :: utf8LossyDecode rest
    else if 194 ≤ b ∧ b ≤ 223 then
      match rest with
      | [] => replacementBytes
      | c1 :: rest2 =>
        if isCont c1 then b :: c1 :: utf8LossyDecode rest2
        else replacementBytes ++ utf8LossyDecode (c1 :: rest2)
    else if 224 ≤ b ∧ b ≤ 239 then
      match rest with
      | [] => replacementBytes
      | c1 :: rest2 =>
        if validCont3 b c1 then
          match rest2 with
          | [] => replacementBytes
          | c2 :: rest3 =>
            if isCont c2 then b :: c1 :: c2 :: utf8LossyDecode rest3
            else replacementBytes ++ utf8LossyDecode (c2 :: rest3)
        else replacementBytes ++ utf8LossyDecode (c1 :: rest2)
    else if 240 ≤ b ∧ b ≤ 244 then
      match rest with
      | [] => replacementBytes
      | c1 :: rest2 =>
        if validCont4 b c1 then
          match rest2 with
          | [] => replacementBytes
          | c2 :: rest3 =>
            if isCont c2 then
              match rest3 with
              | [] => replacementBytes
              | c3 :: rest4 =>
                if isCont c3 then b :: c1 :: c2 :: c3 :: utf8LossyDecode rest4
                else replacementBytes ++ utf8LossyDecode (c3 :: rest4)
            else replacementBytes ++ utf8LossyDecode (c2 :: rest3)
        else replacementBytes ++ utf8LossyDecode (c1 :: rest2)
    else replacementBytes ++ utf8LossyDecode rest
termination_by l => l.length
decreasing_by all_goals (simp; try omega)

/-- Does `body` pass Rust's UTF-8 validation (so that `from_utf8_lossy`
copies it through verbatim)?  Mirrors the case structure of
`utf8LossyDecode`. -/
def utf8Valid : List Nat → Bool
  | [] => true
  | b :: rest =>
    if b ≤ 127 then utf8Valid rest
    else if 194 ≤ b ∧ b ≤ 223 then
      match rest with
      | [] => false
      | c1 :: rest2 => isCont c1 && utf8Valid rest2
    else if 224 ≤ b ∧ b ≤ 239 then
      match rest with
      | [] => false
      | c1 :: rest2 =>
        validCont3 b c1 &&
          (match rest2 with
           | [] => false
           | c2 :: rest3 => isCont c2 && utf8Valid rest3)
    else if 240 ≤ b ∧ b ≤ 244 then
      match rest with
      | [] => false
      | c1 :: rest2 =>
        validCont4 b c1 &&
          (match rest2 with
           | [] => false
           | c2 :: rest3 =>
             isCont c2 &&
               (match rest3 with
                | [] => false
                | c3 :: rest4 => isCont c3 && utf8Valid rest4))
    else false

/-- `read_message` from `client.rs`: frame-decode the body with `read_raw`,
then apply `String::from_utf8_lossy`; the result is the UTF-8 bytes of the
returned `String`, paired with the unread remainder of the stream. -/
def read_message (input : List Nat) : Except ReadErr (List Nat × List Nat) :=
  (read_raw input).map fun p => (utf8LossyDecode p.1, p.2)

/-- One entry of the TraceQueue: either `Ok((task_id, result, events))` for a
completed path — `task_id` is ignored by the drain loop — or `Err(msg)` for a
path that failed.  Events are abstract tokens (`Nat`); their serialization is
a parameter of the environment. -/
abbrev QEntry := Except String (Nat × Bool × List Nat)

/-- External collaborators of the session, held abstract: the symbolic
execution engine (the queue contents its workers push for a given opcode, in
pop order), `write_events` serialization, `assemble_instruction`, and the
`"dev-" ++ GIT_COMMIT` version bytes baked in at build time. -/
structure Env where
  engine : Nat → List QEntry
  writeEvents : List Nat → List Nat
  asm : List Char → Except String (List Nat)
  version : List Nat

/-- The `Answer` enum of `client.rs`; payloads are byte lists. -/
inductive Answer where
  | Error
  | Version (ver : List Nat)
  | StartTraces
  | Trace (b : Bool) (trc : List Nat)
  | EndTraces
  deriving DecidableEq, Repr

/-- `u8::from(b)` for the outcome flag of a `Trace` answer. -/
def boolByte : Bool → Nat
  | false => 0
  | true => 1

/-- `write_answer` from `client.rs`: one discriminant byte, then the
variant payload (`write_slice` for length-prefixed fields; for `Trace` the
flag byte is written together with the discriminant, before the trace). -/
def write_answer : Answer → Except WriteErr (List Nat)
  | Answer.Error => Except.ok [0]
  | Answer.Version ver => (write_slice ver).map fun s => 1 :: s
  | Answer.StartTraces => Except.ok [2]
  | Answer.Trace b trc => (write_slice trc).map fun s => 3 :: boolByte b :: s
  | Answer.EndTraces => Except.ok [4]

/-- The drain loop of `execute_opcode`: pop entries until the queue is
empty-and-done; a popped `Ok` writes one `Trace` with the events reversed
into chronological order, the first popped `Err(msg)` breaks with that error
(discarding everything still queued), and exhaustion writes `EndTraces` and
breaks with success. -/
def drainQueue (env : Env) : List QEntry → List Answer × Except String Unit
  | [] => ([Answer.EndTraces], Except.ok ())
  | Except.ok (_, result, events) :: rest =>
    let p := drainQueue env rest
    (Answer.Trace result (env.writeEvents events.reverse) :: p.1, p.2)
  | Except.error msg :: _ => ([], Except.error msg)

/-- `execute_opcode` from `client.rs`, at the answer level: emit
`StartTraces` before any result is known, start the pool (whose completed
paths are `env.engine opcode`, in pop order), then drain the queue.
Returns the answers written and the pipeline result. -/
def execute_opcode (env : Env) (opcode : Nat) : List Answer × Except String Unit :=
  let p := drainQueue env (env.engine opcode)
  (Answer.StartTraces :: p.1, p.2)

/-- Rust `char::is_whitespace` (the Unicode `White_Space` property), used by
`str::trim`. -/
def rustIsWhitespace (c : Char) : Bool :=
  decide (c.toNat = 9 ∨ c.toNat = 10 ∨ c.toNat = 11 ∨ c.toNat = 12 ∨ c.toNat = 13 ∨
          c.toNat = 32 ∨ c.toNat = 133 ∨ c.toNat = 160 ∨ c.toNat = 5760 ∨
          (8192 ≤ c.toNat ∧ c.toNat ≤ 8202) ∨ c.toNat = 8232 ∨ c.toNat = 8233 ∨
          c.toNat = 8239 ∨ c.toNat = 8287 ∨ c.toNat = 12288)

/-- `str::trim`: drop leading and trailing whitespace. -/
def rustTrim (s : List Char) : List Char :=
  ((s.dropWhile rustIsWhitespace).reverse.dropWhile rustIsWhitespace).reverse

/-- Split a string at its first space, if any (the work behind
`splitn(2, ' ')`). -/
def splitAtFirstSpace : List Char → Option (List Char × List Char)
  | [] => none
  | c :: cs =>
    if c = ' ' then some ([], cs)
    else
      match splitAtFirstSpace cs with
      | none => none
      | some p => some (c :: p.1, p.2)

/-- `tmessage.splitn(2, ' ').collect::<Vec<_>>()`: one piece if the trimmed
message has no space, otherwise the part before the first space and the
whole remainder after it. -/
def splitn2 (s : List Char) : List (List Char) :=
  match splitAtFirstSpace s with
  | none => [s]
  | some p => [p.1, p.2]

/-- One hexadecimal digit, as `from_str_radix(_, 16)` accepts them. -/
def hexDigitVal (c : Char) : Option Nat :=
  if 48 ≤ c.toNat ∧ c.toNat ≤ 57 then some (c.toNat - 48)
  else if 97 ≤ c.toNat ∧ c.toNat ≤ 102 then some (c.toNat - 87)
  else if 65 ≤ c.toNat ∧ c.toNat ≤ 70 then some (c.toNat - 55)
  else none

/-- The digit-accumulation loop of `u32::from_str_radix(_, 16)`:
`checked_mul`/`checked_add` against `u32::MAX` at each digit. -/
def parseHexDigits : List Char → Nat → Option Nat
  | [], acc => some acc
  | c :: cs, acc =>
    match hexDigitVal c with
    | none => none
    | some d =>
      if acc * 16 + d ≤ 4294967295 then parseHexDigits cs (acc * 16 + d)
      else none

/-- `u32::from_str_radix(s, 16)`: an optional leading `+` (a `-` is not a
sign for an unsigned type and fails as a non-digit), then at least one hex
digit, rejecting values above `u32::MAX`. -/
def u32FromStrRadix16 (s : List Char) : Option Nat :=
  match s with
  | [] => none
  | c :: rest =>
    if c = '+' then
      match rest with
      | [] => none
      | _ => parseHexDigits rest 0
    else parseHexDigits s 0

/-- `u32::from_le_bytes` on the 4-byte array filled by `copy_from_slice`. -/
def u32FromLeBytes (bytes : List Nat) : Nat :=
  match bytes with
  | [b0, b1, b2, b3] => b0 % 256 + 256 * (b1 % 256) + 65536 * (b2 % 256) + 16777216 * (b3 % 256)
  | _ => 0

/-- How a session run can end, mirroring `interact`'s
`io::Result<Result<(), String>>` plus the ways the loop body can unwind:
`ok` is `Ok(Ok(()))` (a `stop` request), `protocolError` is `Ok(Err(msg))`,
`ioError` is `Err(_)` (here: the peer closed the stream, so `read_exact`
fails), and `panicked` is an unwind that never returns to `isla_main`
(the `copy_from_slice` length mismatch). -/
inductive SessionOutcome where
  | ok
  | protocolError (msg : String)
  | ioError
  | panicked (msg : String)
  deriving DecidableEq, Repr

/-- `interact` from `client.rs` over the sequence of framed request strings
the peer sends before closing the stream: trim, split at the first space,
dispatch on `version` / `stop` / `execute` / `execute_asm`, and loop.
Returns every answer written in order, paired with how the loop ended. -/
def interact (env : Env) : List String → List Answer × SessionOutcome
  | [] => ([], SessionOutcome.ioError)
  | message :: rest =>
    let t := rustTrim message.toList
    match splitn2 t with
    | [cmd] =>
      if cmd = "version".toList then
        let p := interact env rest
        (Answer.Version env.version :: p.1, p.2)
      else if cmd = "stop".toList then ([], SessionOutcome.ok)
      else ([], SessionOutcome.protocolError "Invalid command")
    | [cmd, instruction] =>
      if cmd = "execute".toList then
        match u32FromStrRadix16 instruction with
        | some opcode =>
          let q := execute_opcode env opcode
          match q.2 with
          | Except.ok () =>
            let p := interact env rest
            (q.1 ++ p.1, p.2)
          | Except.error msg => (q.1, SessionOutcome.protocolError msg)
        | none =>
          ([], SessionOutcome.protocolError ("Could not parse opcode " ++ String.mk instruction))
      else if cmd = "execute_asm".toList then
        match env.asm instruction with
        | Except.ok bytes =>
          if bytes.length = 4 then
            let q := execute_opcode env (u32FromLeBytes bytes)
            match q.2 with
            | Except.ok () =>
              let p := interact env rest
              (q.1 ++ p.1, p.2)
            | Except.error msg => (q.1, SessionOutcome.protocolError msg)
          else
            ([],
             SessionOutcome.panicked "source slice length does not match destination slice length")
        | Except.error _ =>
          ([], SessionOutcome.protocolError ("Could not parse opcode " ++ String.mk instruction))
      else ([], SessionOutcome.protocolError "Invalid command")
    | _ => ([], SessionOutcome.protocolError "Invalid command")

/-- The observable end of `isla_main`: either the process reaches `exit`
with a status code after having written the listed answers, or a panic
unwinds (no further answer is written, no status is chosen by
`isla_main`). -/
inductive MainResult where
  | exited (code : Nat) (sent : List Answer)
  | panicked (msg : String)
  deriving DecidableEq, Repr

/-- The session part of `isla_main` from `client.rs`: run `interact`;
`Ok(Ok(()))` exits 0, `Ok(Err(e))` logs `e`, writes one `Error` answer and
exits 1, `Err(io)` logs and exits 2, and a panic propagates. -/
def isla_main (env : Env) (input : List String) : MainResult :=
  let p := interact env input
  match p.2 with
  | SessionOutcome.ok => MainResult.exited 0 p.1
  | SessionOutcome.protocolError _ => MainResult.exited 1 (p.1 ++ [Answer.Error])
  | SessionOutcome.ioError => MainResult.exited 2 p.1
  | SessionOutcome.panicked msg => MainResult.panicked msg

/-- Does a request fail `interact`'s dispatch in one of the two ways claim
C6 describes: an unrecognized command, or an `execute` whose argument does
not parse as unsigned 32-bit hex?  (`execute_asm` assembler failures are a
separate case.) -/
def malformedRequest (s : String) : Bool :=
  match splitn2 (rustTrim s.toList) with
  | [cmd] => ¬(cmd = "version".toList ∨ cmd = "stop".toList)
  | [cmd, instruction] =>
    if cmd = "execute".toList then (u32FromStrRadix16 instruction).isNone
    else if cmd = "execute_asm".toList then false
    else true
  | _ => true

set_option maxHeartbeats 1600000 in
theorem utf8Valid_decode_id (l : List Nat) : utf8Valid l = true → utf8LossyDecode l = l := by
  induction l using utf8LossyDecode.induct with
  | case1 =>
    intro h
    rw [utf8LossyDecode.eq_def]
  | case2 b rest2 hb ih =>
    intro h
    rw [utf8Valid.eq_def] at h
    simp only [if_pos hb] at h
    rw [utf8LossyDecode.eq_def]
    simp [hb, ih h]
  | case3 b hb hr =>
    intro h
    rw [utf8Valid.eq_def] at h
    simp [hb, hr] at h
  | case4 b hb hr c1 rest2 hc ih =>
    intro h
    rw [utf8Valid.eq_def] at h
    simp only [if_neg hb, if_pos hr, hc, Bool.true_and] at h
    rw [utf8LossyDecode.eq_def]
    simp [hb, hr, hc, ih h]
  | case5 b hb hr c1 rest2 hc ih =>
    intro h
    rw [utf8Valid.eq_def] at h
    simp [hb, hr, hc] at h
  | case6 b hb h2 hr =>
    intro h
    rw [utf8Valid.eq_def] at h
    simp [hb, h2, hr] at h
  | case7 b hb h2 hr c1 hv =>
    intro h
    rw [utf8Valid.eq_def] at h
    simp [hb, h2, hr, hv] at h
  | case8 b hb h2 hr c1 hv c2 rest3 hc ih =>
    intro h
    rw [utf8Valid.eq_def] at h
    simp only [if_neg hb, if_neg h2, if_pos hr, hv, hc, Bool.true_and] at h
    rw [utf8LossyDecode.eq_def]
    simp [hb, h2, hr, hv, hc, ih h]
  | case9 b hb h2 hr c1 hv c2 rest3 hc ih =>
    intro h
    rw [utf8Valid.eq_def] at h
    simp [hb, h2, hr, hv, hc] at h
  | case10 b hb h2 hr c1 rest2 hv ih =>
    intro h
    rw [utf8Valid.eq_def] at h
    simp [hb, h2, hr, hv] at h
  | case11 b hb h2 h3 hr =>
    intro h
    rw [utf8Valid.eq_def] at h
    simp [hb, h2, h3, hr] at h
  | case12 b hb h2 h3 hr c1 hv =>
    intro h
    rw [utf8Valid.eq_def] at h
    simp [hb, h2, h3, hr, hv] at h
  | case13 b hb h2 h3 hr c1 hv c2 hc =>
    intro h
    rw [utf8Valid.eq_def] at h
    simp [hb, h2, h3, hr, hv, hc] at h
  | case14 b hb h2 h3 hr c1 hv c2 hc c3 rest4 hc3 ih =>
    intro h
    rw [utf8Valid.eq_def] at h
    simp only [if_neg hb, if_neg h2, if_neg h3, if_pos hr, hv, hc, hc3,
      Bool.true_and] at h
    rw [utf8LossyDecode.eq_def]
    simp [hb, h2, h3, hr, hv, hc, hc3, ih h]
  | case15 b hb h2 h3 hr c1 hv c2 hc c3 rest4 hc3 ih =>
    intro h
    rw [utf8Valid.eq_def] at h
    simp [hb, h2, h3, hr, hv, hc, hc3] at h
  | case16 b hb h2 h3 hr c1 hv c2 rest3 hc ih =>
    intro h
    rw [utf8Valid.eq_def] at h
    simp [hb, h2, h3, hr, hv, hc] at h
  | case17 b hb h2 h3 hr c1 rest2 hv ih =>
    intro h
    rw [utf8Valid.eq_def] at h
    simp [hb, h2, h3, hr, hv] at h
  | case18 b rest2 hb h2 h3 h4 ih =>
    intro h
    rw [utf8Valid.eq_def] at h
    simp [hb, h2, h3, h4] at h

theorem i32_roundtrip (n : Nat) (h : n ≤ maxI32) :
    i32FromLeBytes (n % 256) (n / 256 % 256) (n / 65536 % 256) (n / 16777216 % 256) =
      (n : Int) := by
  unfold maxI32 at h
  have e : n % 256 % 256 + 256 * (n / 256 % 256 % 256) + 65536 * (n / 65536 % 256 % 256) +
      16777216 * (n / 16777216 % 256 % 256) = n := by omega
  simp only [i32FromLeBytes, e]
  rw [if_pos (by omega)]

theorem drainQueue_all_ok (env : Env) (entries : List (Nat × Bool × List Nat)) :
    drainQueue env (entries.map Except.ok) =
      ((entries.map fun e => Answer.Trace e.2.1 (env.writeEvents e.2.2.reverse)) ++
        [Answer.EndTraces], Except.ok ()) := by
  induction entries with
  | nil => rfl
  | cons e t ih =>
    obtain ⟨i, r, ev⟩ := e
    simp [drainQueue, ih]

theorem drainQueue_first_error (env : Env) (good : List (Nat × Bool × List Nat))
    (msg : String) (pending : List QEntry) :
    drainQueue env (good.map Except.ok ++ Except.error msg :: pending) =
      (good.map fun e => Answer.Trace e.2.1 (env.writeEvents e.2.2.reverse),
       Except.error msg) := by
  induction good with
  | nil => rfl
  | cons e t ih =>
    obtain ⟨i, r, ev⟩ := e
    simp [drainQueue, ih]

theorem interact_execute_ok (env : Env) (opcode : Nat) (m : String) (rest : List String)
    (instr : List Char) (answers : List Answer)
    (hexec : execute_opcode env opcode = (answers, Except.ok ()))
    (hsplit : splitn2 (rustTrim m.toList) = ["execute".toList, instr])
    (hparse : u32FromStrRadix16 instr = some opcode) :
    interact env (m :: rest) =
      (answers ++ (interact env rest).1, (interact env rest).2) := by
  rw [interact.eq_def]
  simp only [hsplit, hparse, hexec, ite_true]

theorem interact_execute_err (env : Env) (opcode : Nat) (m : String) (rest : List String)
    (instr : List Char) (answers : List Answer) (msg : String)
    (hexec : execute_opcode env opcode = (answers, Except.error msg))
    (hsplit : splitn2 (rustTrim m.toList) = ["execute".toList, instr])
    (hparse : u32FromStrRadix16 instr = some opcode) :
    interact env (m :: rest) = (answers, SessionOutcome.protocolError msg) := by
  rw [interact.eq_def]
  simp only [hsplit, hparse, hexec, ite_true]

theorem interact_execute_asm_step (env : Env) (m : String) (rest : List String)
    (instr : List Char)
    (hsplit : splitn2 (rustTrim m.toList) = ["execute_asm".toList, instr]) :
    interact env (m :: rest) =
      (match env.asm instr with
       | Except.ok bytes =>
         if bytes.length = 4 then
           match (execute_opcode env (u32FromLeBytes bytes)).2 with
           | Except.ok _ =>
             ((execute_opcode env (u32FromLeBytes bytes)).1 ++ (interact env rest).1,
              (interact env rest).2)
           | Except.error msg =>
             ((execute_opcode env (u32FromLeBytes bytes)).1, SessionOutcome.protocolError msg)
         else
           ([], SessionOutcome.panicked
             "source slice length does not match destination slice length")
       | Except.error _ =>
         ([], SessionOutcome.protocolError ("Could not parse opcode " ++ String.mk instr))) := by
  rw [interact.eq_def]
  simp only [hsplit]
  exact rfl

theorem interact_stop (env : Env) (rest : List String) :
    interact env ("stop" :: rest) = ([], SessionOutcome.ok) := by
  exact rfl

theorem interact_nil (env : Env) : interact env [] = ([], SessionOutcome.ioError) := by
  exact rfl

theorem malformed_interact_aux (env : Env) (r : String)
    (hmal : malformedRequest r = true) :
    ∃ msg, ∀ rest, interact env (r :: rest) = ([], SessionOutcome.protocolError msg) := by
  rw [malformedRequest.eq_def] at hmal
  rcases hsp : splitn2 (rustTrim r.toList) with _ | ⟨cmd, _ | ⟨instr, tail⟩⟩
  · exact ⟨"Invalid command", fun rest => by rw [interact.eq_def]; simp only [hsp]⟩
  · rw [hsp, decide_eq_true_eq] at hmal
    refine ⟨"Invalid command", fun rest => ?_⟩
    rw [interact.eq_def]
    simp only [hsp]
    rw [if_neg (fun hh => hmal (Or.inl hh)), if_neg (fun hh => hmal (Or.inr hh))]
  · rcases htail : tail with _ | ⟨t, ts⟩
    · subst htail
      simp only [hsp] at hmal
      by_cases hcmd : cmd = "execute".toList
      · subst hcmd
        rw [if_pos rfl] at hmal
        have hnone : u32FromStrRadix16 instr = none := by
          rwa [Option.isNone_iff_eq_none] at hmal
        refine ⟨"Could not parse opcode " ++ String.mk instr, fun rest => ?_⟩
        rw [interact.eq_def]
        simp only [hsp, hnone, ite_true]
      · by_cases hcmd2 : cmd = "execute_asm".toList
        · rw [if_neg hcmd, if_pos hcmd2] at hmal
          exact absurd hmal (by decide)
        · refine ⟨"Invalid command", fun rest => ?_⟩
          rw [interact.eq_def]
          simp only [hsp]
          rw [if_neg hcmd, if_neg hcmd2]
    · subst htail
      exact ⟨"Invalid command", fun rest => by rw [interact.eq_def]; simp only [hsp]⟩

/-- Claim C2: the `Answer` encoder writes a one-byte discriminant followed by
the variant payload exactly as: `Error` = byte 0 with no payload; `Version` =
byte 1 then a length-prefixed version string; `StartTraces` = byte 2 with no
payload; `Trace` = byte 3, then one flag byte (0 or 1), then the
length-prefixed event bytes — the flag byte strictly before the
length-prefixed trace; `EndTraces` = byte 4 with no payload. -/
theorem write_answer_encoding (ver trc : List Nat) (b : Bool)
    (hver : ver.length ≤ maxI32) (htrc : trc.length ≤ maxI32) :
    write_answer Answer.Error = Except.ok [0] ∧
    write_answer (Answer.Version ver) =
      Except.ok (1 :: (i32ToLeBytes ver.length ++ ver)) ∧
    write_answer Answer.StartTraces = Except.ok [2] ∧
    write_answer (Answer.Trace b trc) =
      Except.ok (3 :: boolByte b :: (i32ToLeBytes trc.length ++ trc)) ∧
    (boolByte b = 0 ∨ boolByte b = 1) ∧
    write_answer Answer.EndTraces = Except.ok [4] := by
  refine ⟨rfl, ?_, rfl, ?_, ?_, rfl⟩
  · simp [write_answer, write_slice, if_pos hver, Except.map]
  · simp [write_answer, write_slice, if_pos htrc, Except.map]
  · cases b <;> simp [boolByte]

theorem write_answer_encoding_witness :
    write_answer Answer.Error = Except.ok [0] ∧
    write_answer (Answer.Version [104]) = Except.ok (1 :: (i32ToLeBytes 1 ++ [104])) ∧
    write_answer Answer.StartTraces = Except.ok [2] ∧
    write_answer (Answer.Trace true [7, 8]) =
      Except.ok (3 :: boolByte true :: (i32ToLeBytes 2 ++ [7, 8])) ∧
    (boolByte true = 0 ∨ boolByte true = 1) ∧
    write_answer Answer.EndTraces = Except.ok [4] :=
  write_answer_encoding [104] [7, 8] true (by decide) (by decide)

/-- Claim C4 (amended): for every payload `b` whose length is representable
in the framing's signed 32-bit length prefix, reading back a message written
with the framing codec recovers the raw body exactly, and `read_message`
recovers `b` exactly whenever `b` is valid UTF-8 (in general it returns the
lossy UTF-8 decoding of `b`, which replaces invalid sequences). -/
theorem read_write_roundtrip (b : List Nat) (hlen : b.length ≤ maxI32) :
    ∃ w, write_slice b = Except.ok w ∧
      read_raw w = Except.ok (b, []) ∧
      (utf8Valid b = true → read_message w = Except.ok (b, [])) := by
  refine ⟨i32ToLeBytes b.length ++ b, ?_, ?_, ?_⟩
  · simp [write_slice, if_pos hlen]
  · show read_raw (b.length % 256 :: b.length / 256 % 256 :: b.length / 65536 % 256 ::
      b.length / 16777216 % 256 :: b) = Except.ok (b, [])
    rw [read_raw]
    simp only [i32_roundtrip b.length hlen]
    rw [if_neg (by omega), if_neg (by simp)]
    simp
  · intro hv
    show read_message (b.length % 256 :: b.length / 256 % 256 :: b.length / 65536 % 256 ::
      b.length / 16777216 % 256 :: b) = Except.ok (b, [])
    rw [read_message, read_raw]
    simp only [i32_roundtrip b.length hlen]
    rw [if_neg (by omega), if_neg (by simp)]
    simp [Except.map, utf8Valid_decode_id b hv]

theorem read_write_roundtrip_witness :
    ∃ w, write_slice [104, 105] = Except.ok w ∧
      read_raw w = Except.ok ([104, 105], []) ∧
      (utf8Valid [104, 105] = true → read_message w = Except.ok ([104, 105], [])) :=
  read_write_roundtrip [104, 105] (by decide)

/-- Claim C4 counterexample: the body `[0xFF]` has a representable length,
but reading back the written message yields the UTF-8 replacement character
`[0xEF, 0xBF, 0xBD]`, not `[0xFF]` — `read_message` decodes the body with
`String::from_utf8_lossy`, so invalid UTF-8 payloads are not recovered
exactly. -/
theorem read_write_roundtrip_counterexample :
    write_slice [255] = Except.ok [1, 0, 0, 0, 255] ∧
    read_message [1, 0, 0, 0, 255] = Except.ok ([239, 191, 189], []) ∧
    ([239, 191, 189] : List Nat) ≠ [255] := by
  refine ⟨by simp [write_slice, i32ToLeBytes, maxI32], ?_, by decide⟩
  rw [read_message, read_raw]
  norm_num [i32FromLeBytes, Except.map]
  rw [utf8LossyDecode.eq_def]
  norm_num [isCont, replacementBytes]
  rw [utf8LossyDecode.eq_def]

/-- Claim C5 (amended): for every input stream whose 4-byte little-endian
length prefix decodes to a negative value, `read_message` fails fatally and
never attempts a negative-size read and never silently clamps the length —
but the failure is a panic (the `usize::try_from(length).expect(...)` call
unwinds), not a returned `std::io::Error`. -/
theorem read_negative_length_unwinds (b0 b1 b2 b3 : Nat) (rest : List Nat)
    (hneg : i32FromLeBytes b0 b1 b2 b3 < 0) :
    read_message (b0 :: b1 :: b2 :: b3 :: rest) =
      Except.error ReadErr.lengthInvalidUnwind ∧
    read_raw (b0 :: b1 :: b2 :: b3 :: rest) =
      Except.error ReadErr.lengthInvalidUnwind := by
  have h : read_raw (b0 :: b1 :: b2 :: b3 :: rest) =
      Except.error ReadErr.lengthInvalidUnwind := by
    rw [read_raw]
    simp only [if_pos hneg]
  refine ⟨?_, h⟩
  rw [read_message, h]
  exact rfl

theorem read_negative_length_unwinds_witness :
    read_message [255, 255, 255, 255, 9] = Except.error ReadErr.lengthInvalidUnwind ∧
    read_raw [255, 255, 255, 255, 9] = Except.error ReadErr.lengthInvalidUnwind :=
  read_negative_length_unwinds 255 255 255 255 [9] (by decide)

/-- Claim C5 counterexample: on the stream `[0xFF, 0xFF, 0xFF, 0xFF]` the
length prefix decodes to `-1`; `read_message` does not fail with the
`std::io::Error` channel (`ioShortRead`, the result `read_exact` failures
take) — it unwinds out of `usize::try_from(length).expect("message length
invalid")`, which is a panic, not an I/O error. -/
theorem read_negative_length_counterexample :
    read_message [255, 255, 255, 255] = Except.error ReadErr.lengthInvalidUnwind ∧
    ReadErr.lengthInvalidUnwind ≠ ReadErr.ioShortRead := by
  constructor
  · rw [read_message, read_raw]
    norm_num [i32FromLeBytes, Except.map]
  · decide

/-- Claim C8: for every payload whose length exceeds the signed 32-bit
range, `write_slice` fails before writing anything (the
`i32::try_from(message.len()).expect(...)` call unwinds ahead of both
`write_all` calls), so no truncated or wrapped length prefix is emitted. -/
theorem write_overlong_fails (b : List Nat) (h : maxI32 < b.length) :
    write_slice b = Except.error WriteErr.lengthInvalid := by
  rw [write_slice, if_neg (by omega)]

theorem write_overlong_fails_witness :
    write_slice (List.replicate 2147483648 0) = Except.error WriteErr.lengthInvalid :=
  write_overlong_fails (List.replicate 2147483648 0)
    (by rw [List.length_replicate]; decide)

/-- Claim C1: for every successful `execute <hex>` request whose exploration
completes with no per-path error, the session writes exactly one
`StartTraces` (emitted before any exploration result is known), then one
`Trace` per completed path whose event bytes are the path's events reversed
into chronological order, then one `EndTraces`, and the session then
continues with the next request; an opcode yielding zero explorable paths
produces exactly `StartTraces` immediately followed by `EndTraces` and is
not an error. -/
theorem execute_streams_bracketed (env : Env) (opcode : Nat)
    (entries : List (Nat × Bool × List Nat))
    (hq : env.engine opcode = entries.map Except.ok)
    (m : String) (instr : List Char)
    (hsplit : splitn2 (rustTrim m.toList) = ["execute".toList, instr])
    (hparse : u32FromStrRadix16 instr = some opcode) (rest : List String) :
    execute_opcode env opcode =
      (Answer.StartTraces ::
        ((entries.map fun e => Answer.Trace e.2.1 (env.writeEvents e.2.2.reverse)) ++
          [Answer.EndTraces]), Except.ok ()) ∧
    interact env (m :: rest) =
      ((Answer.StartTraces ::
        ((entries.map fun e => Answer.Trace e.2.1 (env.writeEvents e.2.2.reverse)) ++
          [Answer.EndTraces])) ++ (interact env rest).1, (interact env rest).2) ∧
    (entries = [] →
      execute_opcode env opcode = ([Answer.StartTraces, Answer.EndTraces], Except.ok ())) := by
  have hexec : execute_opcode env opcode =
      (Answer.StartTraces ::
        ((entries.map fun e => Answer.Trace e.2.1 (env.writeEvents e.2.2.reverse)) ++
          [Answer.EndTraces]), Except.ok ()) := by
    rw [execute_opcode, hq, drainQueue_all_ok]
  refine ⟨hexec, ?_, ?_⟩
  · exact interact_execute_ok env opcode m rest instr _ hexec hsplit hparse
  · intro he
    rw [hexec, he]
    rfl

theorem execute_streams_bracketed_witness :
    execute_opcode
        (Env.mk (fun _ => [Except.ok (0, true, [5, 6])]) (fun l => l)
          (fun _ => Except.error "none") [100]) 10 =
      ([Answer.StartTraces, Answer.Trace true [6, 5], Answer.EndTraces], Except.ok ()) := by
  have h := (execute_streams_bracketed
    (Env.mk (fun _ => [Except.ok (0, true, [5, 6])]) (fun l => l)
      (fun _ => Except.error "none") [100]) 10 [(0, true, [5, 6])] rfl
    "execute a" ['a'] (by decide) (by decide) []).1
  simpa using h

/-- Claim C3: for every `execute` or `execute_asm` request, if any entry
popped from the TraceQueue during the drain is an error string, the pipeline
stops draining at the first such entry, discards every remaining queued
entry, and the session ends with a single `Error` response and no
`EndTraces`: the peer observes `StartTraces`, zero or more `Trace`
messages, then `Error`. -/
theorem first_error_stops_drain (env : Env) (opcode : Nat)
    (good : List (Nat × Bool × List Nat)) (msg : String) (pending : List QEntry)
    (hq : env.engine opcode = good.map Except.ok ++ Except.error msg :: pending)
    (rest : List String) :
    execute_opcode env opcode =
      (Answer.StartTraces ::
        (good.map fun e => Answer.Trace e.2.1 (env.writeEvents e.2.2.reverse)),
       Except.error msg) ∧
    (∀ m instr, splitn2 (rustTrim m.toList) = ["execute".toList, instr] →
      u32FromStrRadix16 instr = some opcode →
      isla_main env (m :: rest) =
        MainResult.exited 1
          (Answer.StartTraces ::
            (good.map fun e => Answer.Trace e.2.1 (env.writeEvents e.2.2.reverse)) ++
            [Answer.Error])) ∧
    (∀ m instr bytes, splitn2 (rustTrim m.toList) = ["execute_asm".toList, instr] →
      env.asm instr = Except.ok bytes → bytes.length = 4 → u32FromLeBytes bytes = opcode →
      isla_main env (m :: rest) =
        MainResult.exited 1
          (Answer.StartTraces ::
            (good.map fun e => Answer.Trace e.2.1 (env.writeEvents e.2.2.reverse)) ++
            [Answer.Error])) ∧
    Answer.EndTraces ∉
      (Answer.StartTraces ::
        (good.map fun e => Answer.Trace e.2.1 (env.writeEvents e.2.2.reverse)) ++
        [Answer.Error]) ∧
    (Answer.StartTraces ::
        (good.map fun e => Answer.Trace e.2.1 (env.writeEvents e.2.2.reverse)) ++
        [Answer.Error]).count Answer.Error = 1 := by
  have hexec : execute_opcode env opcode =
      (Answer.StartTraces ::
        (good.map fun e => Answer.Trace e.2.1 (env.writeEvents e.2.2.reverse)),
       Except.error msg) := by
    rw [execute_opcode, hq, drainQueue_first_error]
  have hz : (good.map fun e =>
      Answer.Trace e.2.1 (env.writeEvents e.2.2.reverse)).count Answer.Error = 0 := by
    rw [List.count_eq_zero]
    simp
  refine ⟨hexec, ?_, ?_, ?_, ?_⟩
  · intro m instr hsplit hparse
    have hi := interact_execute_err env opcode m rest instr _ msg hexec hsplit hparse
    simp [isla_main, hi]
  · intro m instr bytes hsplit hasm hb4 hopc
    have hstep := interact_execute_asm_step env m rest instr hsplit
    simp only [hasm, hb4, hopc, hexec, ite_true] at hstep
    simp [isla_main, hstep]
  · simp
  · simp [List.count_cons, hz]

theorem first_error_stops_drain_witness :
    isla_main
        (Env.mk (fun _ => [Except.error "boom"]) (fun l => l)
          (fun _ => Except.error "none") [100]) ["execute 0"] =
      MainResult.exited 1 [Answer.StartTraces, Answer.Error] := by
  have h := ((first_error_stops_drain
    (Env.mk (fun _ => [Except.error "boom"]) (fun l => l)
      (fun _ => Except.error "none") [100]) 0 [] "boom" [] rfl []).2.1)
    "execute 0" ['0'] (by decide) (by decide)
  simpa using h

/-- Claim C6: for every request that is an unrecognized command or an
`execute` whose argument does not parse as an unsigned 32-bit hexadecimal
number, the peer is sent exactly one `Error` response and the session then
terminates; the session never resynchronizes and reads another request after
such a malformed request (its behaviour is independent of whatever follows
on the stream). -/
theorem malformed_single_error (env : Env) (r : String)
    (hmal : malformedRequest r = true) (rest : List String) :
    (∃ msg, interact env (r :: rest) = ([], SessionOutcome.protocolError msg)) ∧
    interact env (r :: rest) = interact env [r] ∧
    isla_main env (r :: rest) = MainResult.exited 1 [Answer.Error] := by
  obtain ⟨msg, hall⟩ := malformed_interact_aux env r hmal
  refine ⟨⟨msg, hall rest⟩, by rw [hall rest, hall []], ?_⟩
  simp [isla_main, hall rest]

theorem malformed_single_error_witness :
    (∃ msg,
      interact (Env.mk (fun _ => []) (fun l => l) (fun _ => Except.error "none") [])
          ["frobnicate", "version"] = ([], SessionOutcome.protocolError msg)) ∧
    interact (Env.mk (fun _ => []) (fun l => l) (fun _ => Except.error "none") [])
        ["frobnicate", "version"] =
      interact (Env.mk (fun _ => []) (fun l => l) (fun _ => Except.error "none") [])
        ["frobnicate"] ∧
    isla_main (Env.mk (fun _ => []) (fun l => l) (fun _ => Except.error "none") [])
        ["frobnicate", "version"] =
      MainResult.exited 1 [Answer.Error] :=
  malformed_single_error _ "frobnicate" (by decide) ["version"]

/-- Claim C7: for every `execute_asm` request on which the external
assembler fails, the session terminates with a single `Error` response and
no `StartTraces` response is ever sent for that request. -/
theorem asm_failure_no_start_traces (env : Env) (m : String) (instr : List Char)
    (e : String)
    (hsplit : splitn2 (rustTrim m.toList) = ["execute_asm".toList, instr])
    (hasm : env.asm instr = Except.error e) (rest : List String) :
    interact env (m :: rest) =
      ([], SessionOutcome.protocolError ("Could not parse opcode " ++ String.mk instr)) ∧
    isla_main env (m :: rest) = MainResult.exited 1 [Answer.Error] ∧
    Answer.StartTraces ∉ [Answer.Error] := by
  have hstep := interact_execute_asm_step env m rest instr hsplit
  simp only [hasm] at hstep
  exact ⟨hstep, by simp [isla_main, hstep], by decide⟩

theorem asm_failure_no_start_traces_witness :
    interact (Env.mk (fun _ => []) (fun l => l) (fun _ => Except.error "bad") [])
        ["execute_asm nop"] =
      ([], SessionOutcome.protocolError ("Could not parse opcode " ++ String.mk "nop".toList)) ∧
    isla_main (Env.mk (fun _ => []) (fun l => l) (fun _ => Except.error "bad") [])
        ["execute_asm nop"] =
      MainResult.exited 1 [Answer.Error] ∧
    Answer.StartTraces ∉ [Answer.Error] :=
  asm_failure_no_start_traces _ "execute_asm nop" "nop".toList "bad" (by decide) rfl []

/-- Claim C9 (amended): the process exit status distinguishes the outcome
classes as follows: a session ending by `stop` exits with success (0), a
protocol-level failure that was reported to the peer as an `Error` response
exits with 1, and an unrecoverable I/O error — including the peer closing
the stream, which `read_exact` reports as an I/O error rather than a clean
end of session — exits with 2, distinct from both. -/
theorem exit_codes_distinct (env : Env) (r : String)
    (hmal : malformedRequest r = true) (rest rest2 : List String) :
    isla_main env ("stop" :: rest) = MainResult.exited 0 [] ∧
    isla_main env (r :: rest2) = MainResult.exited 1 [Answer.Error] ∧
    isla_main env [] = MainResult.exited 2 [] ∧
    (0 : Nat) ≠ 1 ∧ (0 : Nat) ≠ 2 ∧ (1 : Nat) ≠ 2 := by
  obtain ⟨msg, hall⟩ := malformed_interact_aux env r hmal
  refine ⟨?_, ?_, ?_, by decide, by decide, by decide⟩
  · simp [isla_main, interact_stop]
  · simp [isla_main, hall rest2]
  · simp [isla_main, interact_nil]

theorem exit_codes_distinct_witness :
    isla_main (Env.mk (fun _ => []) (fun l => l) (fun _ => Except.error "none") [])
        ["stop", "version"] = MainResult.exited 0 [] ∧
    isla_main (Env.mk (fun _ => []) (fun l => l) (fun _ => Except.error "none") [])
        ["frobnicate"] = MainResult.exited 1 [Answer.Error] ∧
    isla_main (Env.mk (fun _ => []) (fun l => l) (fun _ => Except.error "none") [])
        [] = MainResult.exited 2 [] ∧
    (0 : Nat) ≠ 1 ∧ (0 : Nat) ≠ 2 ∧ (1 : Nat) ≠ 2 :=
  exit_codes_distinct _ "frobnicate" (by decide) ["version"] []

/-- Claim C9 counterexample: the claim says a session ending by clean
stream closure exits with success, but when the peer closes the stream
before sending a request, `read_exact` fails and `interact` returns the
I/O-error branch, so `isla_main` exits with status 2, not 0. -/
theorem exit_code_clean_closure_counterexample :
    isla_main (Env.mk (fun _ => []) (fun l => l) (fun _ => Except.error "none") []) [] =
      MainResult.exited 2 [] ∧ (2 : Nat) ≠ 0 :=
  ⟨by exact rfl, by decide⟩

/-- Claim C10: for every `execute_asm` request on which the external
assembler succeeds but returns a byte sequence whose length is not exactly
4, the session loop panics — `opcode.copy_from_slice(&bytes)` requires the
source slice to match the 4-byte destination — instead of reporting an
`Error` response or returning an error result. -/
theorem asm_wrong_length_panics (env : Env) (m : String) (instr : List Char)
    (bytes : List Nat)
    (hsplit : splitn2 (rustTrim m.toList) = ["execute_asm".toList, instr])
    (hasm : env.asm instr = Except.ok bytes) (hlen : bytes.length ≠ 4)
    (rest : List String) :
    interact env (m :: rest) =
      ([], SessionOutcome.panicked
        "source slice length does not match destination slice length") ∧
    isla_main env (m :: rest) =
      MainResult.panicked "source slice length does not match destination slice length" ∧
    (∀ c sent, MainResult.panicked
        "source slice length does not match destination slice length" ≠
      MainResult.exited c sent) := by
  have hstep := interact_execute_asm_step env m rest instr hsplit
  rw [hasm] at hstep
  simp only [if_neg hlen] at hstep
  refine ⟨hstep, by simp [isla_main, hstep], fun c sent h => by cases h⟩

theorem asm_wrong_length_panics_witness :
    interact (Env.mk (fun _ => []) (fun l => l) (fun _ => Except.ok [1, 2, 3]) [])
        ["execute_asm nop"] =
      ([], SessionOutcome.panicked
        "source slice length does not match destination slice length") ∧
    isla_main (Env.mk (fun _ => []) (fun l => l) (fun _ => Except.ok [1, 2, 3]) [])
        ["execute_asm nop"] =
      MainResult.panicked "source slice length does not match destination slice length" ∧
    (∀ c sent, MainResult.panicked
        "source slice length does not match destination slice length" ≠
      MainResult.exited c sent) :=
  asm_wrong_length_panics _ "execute_asm nop" "nop".toList [1, 2, 3] (by decide) rfl
    (by decide) []

end IslaClient
